import Mathlib

/-!
Verification of the record-store and metadata-normalization layer of the
subgenre_classifier repository (src/data/downloader_v2.py and
src/data/data_manager.py), as a shallow embedding in Lean 4.

Python strings are modelled as Lean `String`; all string operations are
routed through structurally recursive helpers over `List Char` so that every
definition evaluates by kernel reduction.  Python `None` becomes `Option`,
raised exceptions become `Except`, and the JSON database file becomes an
inductive `Json` value (the `json` module's dump/load pair is modelled as
storing the structured value itself).  Timestamps produced by
`datetime.now()` are passed in explicitly as strings (an injectable clock).
-/

/-! ## Character and string helpers (Python str operations) -/

/-- Python `str.lower()` (ASCII case folding, applied character by character). -/
def lowerStr (s : String) : String := String.mk (s.data.map Char.toLower)

/-- Trim leading and trailing whitespace from a character list (Python `str.strip()`). -/
def trimChars (l : List Char) : List Char :=
  ((l.dropWhile Char.isWhitespace).reverse.dropWhile Char.isWhitespace).reverse

/-- Python `str.strip()`. -/
def trimStr (s : String) : String := String.mk (trimChars s.data)

/-- Does the second list start with the first one?  (Python `str.startswith`.) -/
def startsWithList : List Char → List Char → Bool
  | [], _ => true
  | _ :: _, [] => false
  | p :: ps, c :: cs => p == c && startsWithList ps cs

/-- Python `str.startswith`. -/
def startsWithStr (s pre : String) : Bool := startsWithList pre.data s.data

/-- Worker for `splitOnStr`.  The fuel argument only makes the recursion
structural; it is always called with more fuel than there are characters, so
the fuel-exhaustion branch is unreachable for a non-empty separator. -/
def splitOnListAux (sep : List Char) : Nat → List Char → List Char → List (List Char)
  | _, [], acc => [acc.reverse]
  | 0, rest, acc => [acc.reverse ++ rest]
  | fuel + 1, c :: rest, acc =>
    if startsWithList sep (c :: rest) then
      acc.reverse :: splitOnListAux sep fuel (List.drop (sep.length - 1) rest) []
    else
      splitOnListAux sep fuel rest (c :: acc)

/-- Python `str.split(sep)` for a non-empty separator: split on every
left-to-right non-overlapping occurrence, keeping empty fragments. -/
def splitOnStr (s sep : String) : List String :=
  (splitOnListAux sep.data (s.data.length + 1) s.data []).map String.mk

/-- Python `str.replace(pat, rep)` (replace every occurrence), via split-and-join. -/
def joinWithChars (sep : List Char) : List (List Char) → List Char
  | [] => []
  | [x] => x
  | x :: y :: rest => x ++ sep ++ joinWithChars sep (y :: rest)

/-- Python `str.replace` for a non-empty pattern. -/
def replaceStr (s pat rep : String) : String :=
  if pat = "" then s else String.mk (joinWithChars rep.data (splitOnListAux pat.data (s.data.length + 1) s.data []))

/-- Split a character list at every character satisfying `p`
(Python `re.split` with a single-character class). -/
def splitByPred (p : Char → Bool) : List Char → List (List Char)
  | [] => [[]]
  | c :: rest =>
    if p c then [] :: splitByPred p rest
    else
      match splitByPred p rest with
      | [] => [[c]]
      | h :: t => (c :: h) :: t

/-- Is `needle` a contiguous substring of `hay`?  (Python `in` on strings.) -/
def containsSeq (needle : List Char) : List Char → Bool
  | [] => startsWithList needle []
  | c :: rest => startsWithList needle (c :: rest) || containsSeq needle rest

/-- Python `needle in hay` substring test. -/
def containsStr (hay needle : String) : Bool := containsSeq needle.data hay.data

/-- ASCII decimal digit test. -/
def isDigitCh (c : Char) : Bool := '0' ≤ c && c ≤ '9'

/-- Numeric value of an ASCII digit character. -/
def digitVal (c : Char) : Nat := c.toNat - 48

/-- Decimal value of a digit list, most significant digit first. -/
def decVal (l : List Char) : Nat := l.foldl (fun acc c => acc * 10 + digitVal c) 0

/-- Decimal digits of `n`, most significant first.  The fuel argument makes the
recursion structural; `natDecimal` supplies enough fuel for it never to run out. -/
def decDigitsAux : Nat → Nat → List Char
  | 0, _ => []
  | fuel + 1, n => if n < 10 then [Nat.digitChar n] else decDigitsAux fuel (n / 10) ++ [Nat.digitChar (n % 10)]

/-- Python `str(n)` for a natural number. -/
def natDecimal (n : Nat) : String := String.mk (decDigitsAux (n + 1) n)

/-- Two-digit zero padding, as in `strftime('%m')` / `strftime('%d')`. -/
def pad2 (n : Nat) : String := if n < 10 then "0" ++ natDecimal n else natDecimal n

/-- Four-digit zero padding, as in `strftime('%Y')`. -/
def pad4 (n : Nat) : String :=
  if n < 10 then "000" ++ natDecimal n
  else if n < 100 then "00" ++ natDecimal n
  else if n < 1000 then "0" ++ natDecimal n
  else natDecimal n

/-! ## Data model

`Track` is the candidate dataclass built by the harvesting code
(`downloader_v2.Track`); `TrackData` is the stored dictionary written by
`TrackDatabase.add_track` (the persisted record layout).  The store itself is
the insertion-ordered dictionary `self.data["tracks"]`, modelled as an
association list with unique keys. -/

/-- The `Track` dataclass of downloader_v2.py (candidate record). -/
structure Track where
  title : String
  artists : List String
  genres : List String
  url : String
  download_url : Option String := none
  publish_date : Option String := none
  credit_info : Option String := none
  file_size : Option Int := none
  file_path : Option String := none
deriving DecidableEq

/-- One stored record: the dictionary written by `TrackDatabase.add_track`.
Fields that the code writes as possibly-`None` are `Option`s (`none` models
JSON `null`). -/
structure TrackData where
  title : String
  genres : List String
  artists : List String
  url : String
  publish_date : Option String
  original_url : Option String
  credit_info : Option String
  file_path : Option String
  file_size : Option Int
  download_timestamp : String
  last_updated : String
deriving DecidableEq

/-- The in-memory store `self.data["tracks"]`: an insertion-ordered map from
track id to record. -/
abbrev Store := List (String × TrackData)

/-! ## Record identity: TrackDatabase.track_exists -/

/-- `TrackDatabase.track_exists`: scan the stored records in order and return
the first id whose record has a case-insensitively equal title and whose
`original_url` equals the candidate's `url` (`track_data.get("original_url")`
yields `None` for a null/missing value, which never equals a string). -/
def track_exists : Store → Track → Option String
  | [], _ => none
  | (id, d) :: rest, t =>
    if lowerStr d.title = lowerStr t.title ∧ d.original_url = some t.url then some id
    else track_exists rest t

/-! ## Record identity: TrackDatabase.generate_track_id -/

/-- The character class `[a-zA-Z0-9]` of the slug regex. -/
def isAsciiAlnum (c : Char) : Bool :=
  ('a' ≤ c && c ≤ 'z') || ('A' ≤ c && c ≤ 'Z') || ('0' ≤ c && c ≤ '9')

/-- `re.sub(r'_+', '_', s)`: collapse every maximal run of underscores to one. -/
def collapseUnderscores : List Char → List Char
  | [] => []
  | [c] => [c]
  | c1 :: c2 :: rest =>
    if c1 == '_' && c2 == '_' then collapseUnderscores (c2 :: rest)
    else c1 :: collapseUnderscores (c2 :: rest)

/-- `str.strip('_')`: drop leading and trailing underscores. -/
def stripUnderscores (l : List Char) : List Char :=
  ((l.dropWhile (· == '_')).reverse.dropWhile (· == '_')).reverse

/-- `re.sub(r'[^a-zA-Z0-9]', '_', …)` applied to one character. -/
def replUnd (c : Char) : Char := if isAsciiAlnum c then c else '_'

/-- The slug computed by `generate_track_id`: lower-case the title, replace
each character outside `[a-zA-Z0-9]` by `_` (`re.sub(r'[^a-zA-Z0-9]', '_', …)`),
collapse underscore runs, and strip leading/trailing underscores. -/
def slug (title : String) : String :=
  String.mk (stripUnderscores (collapseUnderscores ((lowerStr title).data.map replUnd)))

/-- Modelled from the spec's wording of the slug ("the title lower-cased with
every non-alphanumeric run replaced by a single underscore and
leading/trailing underscores trimmed"), for comparison with `slug`.
The flag records whether the previous character belonged to a
non-alphanumeric run. -/
def runReplAux : List Char → Bool → List Char
  | [], _ => []
  | c :: rest, inRun =>
    if isAsciiAlnum c then c :: runReplAux rest false
    else if inRun then runReplAux rest true
    else '_' :: runReplAux rest true

/-- Spec-worded slug: replace every non-alphanumeric run of the lower-cased
title by one underscore, then trim underscores at both ends. -/
def slugSpecRuns (title : String) : String :=
  String.mk (stripUnderscores (runReplAux (lowerStr title).data false))

/-- The candidate keys tried by `generate_track_id`'s while loop:
`track_<base>` first, then `track_<base>_1`, `track_<base>_2`, … -/
def trackKey (base : String) : Nat → String
  | 0 => "track_" ++ base
  | n + 1 => "track_" ++ base ++ "_" ++ natDecimal (n + 1)

/-- The `while f"track_{track_id}" in self.data["tracks"]` loop: return the
first candidate key not among the store's keys.  The fuel argument makes the
search structural; `generate_track_id` passes one more unit of fuel than there
are keys, which always suffices (see `generate_track_id_spec`). -/
def findFreeId (keys : List String) (base : String) : Nat → Nat → String
  | 0, n => trackKey base n
  | fuel + 1, n =>
    if trackKey base n ∈ keys then findFreeId keys base fuel (n + 1)
    else trackKey base n

/-- `TrackDatabase.generate_track_id`: slug the candidate's title and run the
uniqueness loop against the current keys of the store.  Only the title is
consulted. -/
def generate_track_id (store : Store) (t : Track) : String :=
  findFreeId (store.map Prod.fst) (slug t.title) (store.length + 1) 0

/-! ## Persistence: JSON model, TrackDatabase.save_database / load_database

The database file holds `{"tracks": {<id>: {…}}}`.  `json.dump`/`json.load`
are modelled by storing the structured JSON value itself; only the JSON shapes
this database produces are represented (numbers are the integer file sizes). -/

/-- JSON values as persisted by this program. -/
inductive Json where
  | null : Json
  | str : String → Json
  | num : Int → Json
  | arr : List Json → Json
  | obj : List (String × Json) → Json

/-- Encode a possibly-null string field. -/
def jsonOfOptStr : Option String → Json
  | none => Json.null
  | some s => Json.str s

/-- Encode a possibly-null integer field. -/
def jsonOfOptInt : Option Int → Json
  | none => Json.null
  | some n => Json.num n

/-- The record dictionary written by `add_track`, key order as in the source. -/
def encodeTrackData (d : TrackData) : Json :=
  Json.obj
    [("title", Json.str d.title),
     ("genres", Json.arr (d.genres.map Json.str)),
     ("artists", Json.arr (d.artists.map Json.str)),
     ("url", Json.str d.url),
     ("publish_date", jsonOfOptStr d.publish_date),
     ("original_url", jsonOfOptStr d.original_url),
     ("credit_info", jsonOfOptStr d.credit_info),
     ("file_path", jsonOfOptStr d.file_path),
     ("file_size", jsonOfOptInt d.file_size),
     ("download_timestamp", Json.str d.download_timestamp),
     ("last_updated", Json.str d.last_updated)]

/-- The whole persisted structure `{"tracks": {...}}`. -/
def encodeDb (ts : Store) : Json :=
  Json.obj [("tracks", Json.obj (ts.map (fun p => (p.1, encodeTrackData p.2))))]

/-- Read a JSON string. -/
def strOfJson : Json → Option String
  | Json.str s => some s
  | _ => none

/-- Read a JSON list of strings. -/
def strsOfJsons : List Json → Option (List String)
  | [] => some []
  | j :: rest =>
    match strOfJson j, strsOfJsons rest with
    | some s, some ss => some (s :: ss)
    | _, _ => none

/-- Read a JSON array of strings. -/
def strListOfJson : Json → Option (List String)
  | Json.arr xs => strsOfJsons xs
  | _ => none

/-- Read a nullable JSON string. -/
def optStrOfJson : Json → Option (Option String)
  | Json.null => some none
  | Json.str s => some (some s)
  | _ => none

/-- Read a nullable JSON integer. -/
def optIntOfJson : Json → Option (Option Int)
  | Json.null => some none
  | Json.num n => some (some n)
  | _ => none

/-- Recover a stored record from its JSON dictionary (schema of `add_track`). -/
def decodeTrackData (j : Json) : Option TrackData :=
  match j with
  | Json.obj fs =>
    match fs.lookup "title", fs.lookup "genres", fs.lookup "artists", fs.lookup "url",
        fs.lookup "publish_date", fs.lookup "original_url", fs.lookup "credit_info",
        fs.lookup "file_path", fs.lookup "file_size", fs.lookup "download_timestamp",
        fs.lookup "last_updated" with
    | some jt, some jg, some ja, some ju, some jpd, some jou, some jci, some jfp,
        some jfs, some jdt, some jlu =>
      match strOfJson jt, strListOfJson jg, strListOfJson ja, strOfJson ju, optStrOfJson jpd,
          optStrOfJson jou, optStrOfJson jci, optStrOfJson jfp, optIntOfJson jfs,
          strOfJson jdt, strOfJson jlu with
      | some ti, some ge, some ar, some u, some pd, some ou, some ci, some fp,
          some fsz, some dt, some lu =>
        some ⟨ti, ge, ar, u, pd, ou, ci, fp, fsz, dt, lu⟩
      | _, _, _, _, _, _, _, _, _, _, _ => none
    | _, _, _, _, _, _, _, _, _, _, _ => none
  | _ => none

/-- Recover the id-to-record map of a `"tracks"` object. -/
def decodePairs : List (String × Json) → Option Store
  | [] => some []
  | (k, j) :: rest =>
    match decodeTrackData j, decodePairs rest with
    | some d, some ds => some ((k, d) :: ds)
    | _, _ => none

/-- `load_database`'s structure handling: an object's `"tracks"` object gives
the store; an object without a `"tracks"` key yields an empty track map; any
other shape makes the load fail (the exception handler then falls back to an
empty store, see `load_database`). -/
def decodeDb (j : Json) : Option Store :=
  match j with
  | Json.obj fs =>
    match fs.lookup "tracks" with
    | some (Json.obj ts) => decodePairs ts
    | some _ => none
    | none => some []
  | _ => none

/-- The two file slots touched by `TrackDatabase.save_database`: the database
file `tracks_database.json` and its backup sibling `tracks_database.backup.json`. -/
structure FileState where
  main : Option Json
  backup : Option Json

/-- `TrackDatabase.save_database`: if the database file exists, rename it onto
the backup path (overwriting any previous backup), then write the current
in-memory structure.  `writeOk` selects whether the write succeeds; on failure
the exception is caught, logged, and no usable database file remains.  The
function body has no `return`, so Python returns `None` on both paths — the
second component is that (indistinguishable) return value. -/
def save_database (writeOk : Bool) (fs : FileState) (ts : Store) : FileState × Unit :=
  let fs1 := match fs.main with
    | some j => { main := none, backup := some j : FileState }
    | none => fs
  if writeOk then ({ fs1 with main := some (encodeDb ts) }, ())
  else ({ fs1 with main := none }, ())

/-- `TrackDatabase.load_database`: a missing file, an unreadable file, or a
structure the accessors reject yields the empty store; otherwise the stored
track map. -/
def load_database (fs : FileState) : Store :=
  match fs.main with
  | none => []
  | some j =>
    match decodeDb j with
    | some ts => ts
    | none => []

/-- `DatabaseManager.save_database`: writes the file in place — no backup
rename at all — and likewise catches any write error, returning `None` either
way. -/
def dm_save_database (writeOk : Bool) (fs : FileState) (ts : Store) : FileState × Unit :=
  if writeOk then ({ fs with main := some (encodeDb ts) }, ())
  else ({ fs with main := none }, ())

/-! ## Store mutation: TrackDatabase.update_track -/

/-- Python's `track.download_url or track.url`: the left operand unless it is
falsy (`None` or the empty string). -/
def pyOrStr (a : Option String) (b : String) : String :=
  match a with
  | some s => if s = "" then b else s
  | none => b

/-- The field dictionary passed to `dict.update` in `update_track`: it
overwrites these fields and refreshes `last_updated`, leaving `original_url`
and `download_timestamp` as they were. -/
def mergeTrack (d : TrackData) (t : Track) (now : String) : TrackData :=
  { d with
    title := t.title,
    genres := t.genres,
    artists := t.artists,
    url := pyOrStr t.download_url t.url,
    publish_date := t.publish_date,
    credit_info := t.credit_info,
    file_path := t.file_path,
    file_size := t.file_size,
    last_updated := now }

/-- `TrackDatabase.update_track`: `if track_id in self.data["tracks"]` merge
the new fields into that entry; there is no `else` branch, so an absent id
leaves the store untouched and raises nothing.  `now` is the
`datetime.now().isoformat()` timestamp. -/
def update_track (store : Store) (track_id : String) (t : Track) (now : String) : Store :=
  store.map (fun p => if p.1 = track_id then (p.1, mergeTrack p.2 t now) else p)

/-! ## Query: DatabaseManager.get_tracks_by_year

`track_data.get("publish_date", "")` returns the stored value — `None` for a
JSON null (the default only covers a missing key, and `add_track` always
writes the key).  `None.startswith(year)` then raises `AttributeError`, which
nothing catches; the `Except` error models that exception escaping the call. -/

/-- `DatabaseManager.get_tracks_by_year`: collect, in store order, the records
whose `publish_date` starts with the year string; a record whose
`publish_date` is null makes the whole call raise. -/
def get_tracks_by_year : Store → String → Except Unit (List (String × TrackData))
  | [], _ => Except.ok []
  | (id, d) :: rest, year =>
    match d.publish_date with
    | none => Except.error ()
    | some pd =>
      match get_tracks_by_year rest year with
      | Except.error e => Except.error e
      | Except.ok rs =>
        Except.ok (if startsWithStr pd year then (id, d) :: rs else rs)

/-! ## Aggregation: DatabaseManager.get_detailed_stats -/

/-- Add one occurrence of a key to a Python-dict-style counter
(`d[k] = d.get(k, 0) + 1`): insertion order of first occurrences preserved. -/
def bumpCount : List (String × Nat) → String → List (String × Nat)
  | [], k => [(k, 1)]
  | (k', c) :: rest, k =>
    if k' = k then (k', c + 1) :: rest else (k', c) :: bumpCount rest k

/-- Build a counter from a key sequence. -/
def tally (ks : List String) : List (String × Nat) := ks.foldl bumpCount []

/-- Stable insertion keeping counts in descending order; equal counts keep
their processing order (Python's stable `sorted(…, reverse=True)`). -/
def insertCountDesc (x : String × Nat) : List (String × Nat) → List (String × Nat)
  | [] => [x]
  | y :: ys => if y.2 < x.2 then x :: y :: ys else y :: insertCountDesc x ys

/-- `sorted(counts.items(), key=lambda x: x[1], reverse=True)`. -/
def sortCountsDesc (l : List (String × Nat)) : List (String × Nat) :=
  l.foldl (fun acc x => insertCountDesc x acc) []

/-- Insertion keeping keys in ascending order (`dict(sorted(items))`). -/
def insertKeyAsc (x : String × Nat) : List (String × Nat) → List (String × Nat)
  | [] => [x]
  | y :: ys => if x.1 < y.1 then x :: y :: ys else y :: insertKeyAsc x ys

/-- `dict(sorted(counts.items()))`. -/
def sortKeysAsc (l : List (String × Nat)) : List (String × Nat) :=
  l.foldl (fun acc x => insertKeyAsc x acc) []

/-- Gregorian leap-year rule used by `datetime`. -/
def isLeapYear (y : Nat) : Bool := (y % 4 == 0 && y % 100 != 0) || y % 400 == 0

/-- Days in a month, as validated by `datetime`. -/
def daysInMonth (y m : Nat) : Nat :=
  if m == 2 then (if isLeapYear y then 29 else 28)
  else if m == 4 || m == 6 || m == 9 || m == 11 then 30
  else 31

/-- `datetime.fromisoformat(ts).strftime('%Y-%m-%d')` for the timeline:
accept a string opening with a valid `YYYY-MM-DD` (year ≥ 1) that is either
the whole string or is followed by a time part introduced by `'T'` or a space,
and return that date prefix; anything else fails (the code's `try`/`except`
then skips the record).  The time part itself is not further validated. -/
def isoDay (s : String) : Option String :=
  match s.data with
  | y1 :: y2 :: y3 :: y4 :: '-' :: m1 :: m2 :: '-' :: d1 :: d2 :: rest =>
    if isDigitCh y1 && isDigitCh y2 && isDigitCh y3 && isDigitCh y4
        && isDigitCh m1 && isDigitCh m2 && isDigitCh d1 && isDigitCh d2 then
      let y := 1000 * digitVal y1 + 100 * digitVal y2 + 10 * digitVal y3 + digitVal y4
      let m := 10 * digitVal m1 + digitVal m2
      let d := 10 * digitVal d1 + digitVal d2
      if decide (1 ≤ y) && decide (1 ≤ m) && decide (m ≤ 12)
          && decide (1 ≤ d) && decide (d ≤ daysInMonth y m)
          && (match rest with
              | [] => true
              | 'T' :: _ => true
              | ' ' :: _ => true
              | _ => false) then
        some (String.mk [y1, y2, y3, y4, '-', m1, m2, '-', d1, d2])
      else none
    else none
  | _ => none

/-- The year frequency table: skip records whose `publish_date` is falsy
(null or empty), count `publish_date[:4]` otherwise. -/
def yearTally (store : Store) : List (String × Nat) :=
  store.foldl
    (fun m p =>
      match p.2.publish_date with
      | none => m
      | some pd => if pd = "" then m else bumpCount m (String.mk (pd.data.take 4)))
    []

/-- The download-timeline table: skip records with a falsy timestamp or one
`fromisoformat` rejects (after `'Z'` is replaced by `'+00:00'`). -/
def timelineTally (store : Store) : List (String × Nat) :=
  store.foldl
    (fun m p =>
      let ts := p.2.download_timestamp
      if ts = "" then m
      else
        match isoDay (replaceStr ts "Z" "+00:00") with
        | some day => bumpCount m day
        | none => m)
    []

/-- Turn a possibly-null file size into the summand Python's `sum` sees; a
null value makes the addition raise `TypeError`, modelled as the error case.
The list comprehension collects every `t.get("file_size", 0)` first, then
`sum` fails iff any of them is `None`. -/
def collectSizes : Store → Except Unit (List Int)
  | [] => Except.ok []
  | (_, d) :: rest =>
    match d.file_size with
    | none => Except.error ()
    | some n =>
      match collectSizes rest with
      | Except.error e => Except.error e
      | Except.ok ns => Except.ok (n :: ns)

/-- The non-error payload of `get_detailed_stats`.  The source additionally
rounds the byte totals into MB/GB floats for display; those are derived from
`total_file_size_bytes` and `avg_file_size_bytes` and are not modelled
separately. -/
structure StatsData where
  total_tracks : Nat
  total_file_size_bytes : Int
  avg_file_size_bytes : ℚ
  genres_unique : Nat
  genres_counts : List (String × Nat)
  artists_unique : Nat
  artists_counts : List (String × Nat)
  years_unique : Nat
  years_counts : List (String × Nat)
  download_timeline : List (String × Nat)
deriving DecidableEq

/-- Result of `get_detailed_stats`: either the `{"error": "No tracks in
database"}` dictionary returned for an empty store, or the statistics. -/
inductive StatsResult where
  | noData : StatsResult
  | stats : StatsData → StatsResult
deriving DecidableEq

/-- `DatabaseManager.get_detailed_stats`: empty store returns the "no data"
dictionary; otherwise sum the file sizes (raising if any is null), average
over the record count, and build the frequency tables. -/
def get_detailed_stats (store : Store) : Except Unit StatsResult :=
  match store with
  | [] => Except.ok StatsResult.noData
  | _ :: _ =>
    match collectSizes store with
    | Except.error e => Except.error e
    | Except.ok sizes =>
      let total : Int := sizes.foldl (· + ·) 0
      let gc := sortCountsDesc (tally (store.flatMap (fun p => p.2.genres)))
      let ac := sortCountsDesc (tally (store.flatMap (fun p => p.2.artists)))
      let yc := sortCountsDesc (yearTally store)
      Except.ok (StatsResult.stats
        { total_tracks := store.length,
          total_file_size_bytes := total,
          avg_file_size_bytes := (total : ℚ) / (sizes.length : ℚ),
          genres_unique := gc.length,
          genres_counts := gc,
          artists_unique := ac.length,
          artists_counts := ac,
          years_unique := yc.length,
          years_counts := yc,
          download_timeline := sortKeysAsc (timelineTally store) })

/-! ## Field parser: EnhancedNCSDownloader.parse_artists -/

/-- `re.sub(r'^(by|artist:?)\s*', '', text, flags=IGNORECASE)`: the regex
engine tries `by` first, then `artist:` (greedy `:?`), then `artist`, each
case-insensitively at the start of the string, and consumes any following
whitespace. -/
def stripArtistMark (s : String) : String :=
  let cs := s.data
  let low := cs.map Char.toLower
  if low.take 2 = ['b', 'y'] then
    String.mk ((cs.drop 2).dropWhile Char.isWhitespace)
  else if low.take 7 = "artist:".data then
    String.mk ((cs.drop 7).dropWhile Char.isWhitespace)
  else if low.take 6 = "artist".data then
    String.mk ((cs.drop 6).dropWhile Char.isWhitespace)
  else s

/-- The separator list of `parse_artists`, in application order. -/
def artistSeps : List String := [" feat. ", " ft. ", " & ", " and ", ",", " x ", " X "]

/-- The stop-word list of `parse_artists`. -/
def artistStops : List String := ["the", "a", "an"]

/-- `EnhancedNCSDownloader.parse_artists`: strip a leading "by"/"artist:"
marker, split successively on every separator (each separator applied to every
fragment produced so far, stripping each piece), then keep the fragments that
are non-empty, longer than one character and not a stop word, capped at 5. -/
def parse_artists (text : String) : List String :=
  if text = "" then []
  else
    let t := stripArtistMark text
    let artists := artistSeps.foldl
      (fun as sep => as.flatMap (fun a => (splitOnStr a sep).map trimStr)) [t]
    ((artists.map trimStr).filter
      (fun a => a != "" && decide (1 < a.length) && !(artistStops.contains (lowerStr a)))).take 5

/-! ## Field parser: EnhancedNCSDownloader.parse_genres -/

/-- The fixed vocabulary of known genres, in source order. -/
def knownGenres : List String :=
  ["House", "Progressive House", "Deep House", "Tech House",
   "Dubstep", "Drum & Bass", "DnB", "Trap", "Future Bass",
   "Electro", "Electronic", "EDM", "Ambient", "Chill",
   "Synthwave", "Melodic Dubstep", "Hardstyle", "Trance"]

/-- The vocabulary pass: every known genre whose lower-cased name occurs as a
substring of the lower-cased text, in vocabulary order. -/
def knownGenreMatches (text : String) : List String :=
  knownGenres.filter (fun g => containsStr (lowerStr text) (lowerStr g))

/-- Python `str.title()`: upper-case each letter that follows a non-letter,
lower-case every other letter. -/
def pyTitleAux : List Char → Bool → List Char
  | [], _ => []
  | c :: rest, prevAlpha =>
    (if c.isAlpha then (if prevAlpha then c.toLower else c.toUpper) else c)
      :: pyTitleAux rest c.isAlpha

/-- Python `str.title()`. -/
def pyTitle (s : String) : String := String.mk (pyTitleAux s.data false)

/-- The fallback pass: `re.split(r'[,;&|]', text)`, strip and title-case each
piece, keep those longer than two characters. -/
def fallbackTags (text : String) : List String :=
  (((splitByPred (fun c => c == ',' || c == ';' || c == '&' || c == '|') text.data).map
      (fun tag => pyTitle (String.mk (trimChars tag)))).filter
    (fun tag => tag != "" && decide (2 < tag.length)))

/-- `EnhancedNCSDownloader.parse_genres`: vocabulary pass first; only if it
finds nothing, the fallback splitter; cap at 3. -/
def parse_genres (text : String) : List String :=
  if text = "" then []
  else
    let found := knownGenreMatches text
    (if found.isEmpty then fallbackTags text else found).take 3

/-! ## Field parser: EnhancedNCSDownloader.parse_date

`parse_date` tries `datetime.strptime(date_str.split('T')[0],
fmt.split('T')[0])` for the seven formats `'%Y-%m-%d'`,
`'%Y-%m-%dT%H:%M:%S%z'`, `'%Y-%m-%dT%H:%M:%S'`, `'%d/%m/%Y'`, `'%m/%d/%Y'`,
`'%B %d, %Y'`, `'%d %B %Y'` — after the `'T'` truncation the second and third
collapse to `'%Y-%m-%d'`.  Python's `strptime` matches `%Y` as exactly four
digits, `%d`/`%m` as one or two digits within range, `%B` as a full month name
case-insensitively, a format-string space as one or more whitespace
characters, requires the whole string to be consumed, and validates the day
against the month (`datetime` construction).  A committed two-digit `%d`/`%m`
is always followed by a non-digit in these formats, so the regex engine's
backtracking to the one-digit alternative can never succeed where the
two-digit reading failed; the straight-line readers below are therefore
equivalent. -/

/-- The date-only shapes of the source's format list after `'T'` truncation. -/
inductive DateFmt where
  | ymd : DateFmt
  | dmy : DateFmt
  | mdy : DateFmt
  | bdy : DateFmt
  | dby : DateFmt
deriving DecidableEq

/-- The source's seven formats, truncated at `'T'`, in order. -/
def srcFormats : List DateFmt :=
  [DateFmt.ymd, DateFmt.ymd, DateFmt.ymd, DateFmt.dmy, DateFmt.mdy, DateFmt.bdy, DateFmt.dby]

/-- `%Y`: exactly four digits. -/
def readYear4 : List Char → Option (Nat × List Char)
  | a :: b :: c :: d :: rest =>
    if isDigitCh a && isDigitCh b && isDigitCh c && isDigitCh d then
      some (1000 * digitVal a + 100 * digitVal b + 10 * digitVal c + digitVal d, rest)
    else none
  | _ => none

/-- `%m` / `%d`: two digits if their value lies in `[lo, hi]`, else one
non-zero digit. -/
def readNum2or1 (lo hi : Nat) : List Char → Option (Nat × List Char)
  | a :: b :: rest =>
    if isDigitCh a && isDigitCh b && decide (lo ≤ 10 * digitVal a + digitVal b)
        && decide (10 * digitVal a + digitVal b ≤ hi) then
      some (10 * digitVal a + digitVal b, rest)
    else if isDigitCh a && decide (1 ≤ digitVal a) then some (digitVal a, b :: rest)
    else none
  | [a] => if isDigitCh a && decide (1 ≤ digitVal a) then some (digitVal a, []) else none
  | [] => none

/-- A literal character of the format string. -/
def expectLit (c : Char) : List Char → Option (List Char)
  | x :: rest => if x == c then some rest else none
  | [] => none

/-- A space in the format string: one or more whitespace characters. -/
def readWs1 : List Char → Option (List Char)
  | x :: rest => if x.isWhitespace then some (rest.dropWhile Char.isWhitespace) else none
  | [] => none

/-- The month names matched by `%B` (C locale), with their numbers. -/
def monthNames : List (String × Nat) :=
  [("january", 1), ("february", 2), ("march", 3), ("april", 4), ("may", 5),
   ("june", 6), ("july", 7), ("august", 8), ("september", 9), ("october", 10),
   ("november", 11), ("december", 12)]

/-- `%B`: a full month name, case-insensitively. -/
def readMonthName (l : List Char) : Option (Nat × List Char) :=
  go monthNames
where
  go : List (String × Nat) → Option (Nat × List Char)
    | [] => none
    | (nm, num) :: rest =>
      if (l.take nm.data.length).map Char.toLower = nm.data then
        some (num, l.drop nm.data.length)
      else go rest

/-- `datetime` range validation: year within `MINYEAR..MAXYEAR` and day valid
for the month. -/
def validYMD (y m d : Nat) : Bool :=
  decide (1 ≤ y) && decide (y ≤ 9999) && decide (1 ≤ d) && decide (d ≤ daysInMonth y m)

/-- One `strptime` attempt on the `'T'`-truncated input, yielding
year/month/day. -/
def strptimeDate (s : String) (f : DateFmt) : Option (Nat × Nat × Nat) :=
  let cs := s.data
  match f with
  | DateFmt.ymd => do
    let (y, r1) ← readYear4 cs
    let r2 ← expectLit '-' r1
    let (m, r3) ← readNum2or1 1 12 r2
    let r4 ← expectLit '-' r3
    let (d, r5) ← readNum2or1 1 31 r4
    if r5.isEmpty && validYMD y m d then some (y, m, d) else none
  | DateFmt.dmy => do
    let (d, r1) ← readNum2or1 1 31 cs
    let r2 ← expectLit '/' r1
    let (m, r3) ← readNum2or1 1 12 r2
    let r4 ← expectLit '/' r3
    let (y, r5) ← readYear4 r4
    if r5.isEmpty && validYMD y m d then some (y, m, d) else none
  | DateFmt.mdy => do
    let (m, r1) ← readNum2or1 1 12 cs
    let r2 ← expectLit '/' r1
    let (d, r3) ← readNum2or1 1 31 r2
    let r4 ← expectLit '/' r3
    let (y, r5) ← readYear4 r4
    if r5.isEmpty && validYMD y m d then some (y, m, d) else none
  | DateFmt.bdy => do
    let (m, r1) ← readMonthName cs
    let r2 ← readWs1 r1
    let (d, r3) ← readNum2or1 1 31 r2
    let r4 ← expectLit ',' r3
    let r5 ← readWs1 r4
    let (y, r6) ← readYear4 r5
    if r6.isEmpty && validYMD y m d then some (y, m, d) else none
  | DateFmt.dby => do
    let (d, r1) ← readNum2or1 1 31 cs
    let r2 ← readWs1 r1
    let (m, r3) ← readMonthName r2
    let r4 ← readWs1 r3
    let (y, r5) ← readYear4 r4
    if r5.isEmpty && validYMD y m d then some (y, m, d) else none

/-- Try the formats in order; the first success wins. -/
def tryFormats : List DateFmt → String → Option (Nat × Nat × Nat)
  | [], _ => none
  | f :: rest, s =>
    match strptimeDate s f with
    | some v => some v
    | none => tryFormats rest s

/-- `date_str.split('T')[0]`. -/
def datePart (s : String) : String :=
  match splitOnStr s "T" with
  | [] => s
  | h :: _ => h

/-- `re.search(r'20\d{2}', date_str)`: the leftmost four characters reading
`2`, `0`, digit, digit. -/
def findYear20 : List Char → Option (List Char)
  | [] => none
  | c :: rest =>
    match rest with
    | c2 :: c3 :: c4 :: _ =>
      if c == '2' && c2 == '0' && isDigitCh c3 && isDigitCh c4 then some [c, c2, c3, c4]
      else findYear20 rest
    | _ => none

/-- `EnhancedNCSDownloader.parse_date`: falsy input gives null; otherwise the
first matching format yields the `strftime('%Y-%m-%d')` normalization; if all
formats fail, an embedded `20xx` year yields `YYYY-01-01`; otherwise null.
Every failure path is absorbed (`except ValueError: continue`), so the
function never raises: the embedding is total. -/
def parse_date (s : String) : Option String :=
  if s = "" then none
  else
    match tryFormats srcFormats (datePart s) with
    | some (y, m, d) => some (pad4 y ++ "-" ++ pad2 m ++ "-" ++ pad2 d)
    | none =>
      match findYear20 s.data with
      | some ys => some (String.mk ys ++ "-01-01")
      | none => none

/-! ## Sample records used as concrete inputs -/

/-- A concrete candidate record. -/
def exTrackFade : Track :=
  { title := "Fade", artists := ["Alan Walker"], genres := ["Progressive House"],
    url := "https://ncs.io/fade" }

/-- Same title as `exTrackFade`, different source URL. -/
def exTrackFadeOther : Track :=
  { title := "Fade", artists := [], genres := [],
    url := "https://other.example/fade" }

/-- A concrete stored record, as `add_track` would write it. -/
def exData : TrackData :=
  { title := "Fade", genres := ["Progressive House"], artists := ["Alan Walker"],
    url := "https://ncs.io/fade.mp3", publish_date := some "2023-01-15",
    original_url := some "https://ncs.io/fade", credit_info := none,
    file_path := none, file_size := some 5242880,
    download_timestamp := "2025-09-23T12:00:00", last_updated := "2025-09-23T12:00:00" }

/-- A record whose `publish_date` is JSON null (as `add_track` writes when
date extraction failed). -/
def exDataNullDate : TrackData := { exData with publish_date := none }

/-- A record whose `file_size` is JSON null (as `add_track` writes when the
payload was never materialized, e.g. in dry-run mode). -/
def exDataNullSize : TrackData := { exData with file_size := none }

/-- A file state in which a database file already exists. -/
def exFileState : FileState :=
  { main := some (encodeDb [("track_fade", exData)]), backup := none }

/-! ## Theorems -/

/-- Strings with equal character data are equal. -/
theorem stringDataInj {s t : String} (h : s.data = t.data) : s = t := by
  cases s
  cases t
  exact congrArg String.mk h

/-- C1: `track_exists` returns a non-null id iff some stored record has a
case-insensitively equal title (both sides lower-cased) and an `original_url`
equal to the candidate's `url`.  In particular a candidate differing from a
stored record only in title case is matched, and one with an identical title
but a different URL is not. -/
theorem track_exists_matches_title_and_url (store : Store) (t : Track) :
    (track_exists store t).isSome = true ↔
      ∃ p ∈ store, lowerStr p.2.title = lowerStr t.title ∧ p.2.original_url = some t.url := by
  induction store with
  | nil => simp [track_exists]
  | cons hd tl ih =>
    obtain ⟨id, d⟩ := hd
    by_cases h : lowerStr d.title = lowerStr t.title ∧ d.original_url = some t.url
    · simp [track_exists, h]
    · simp only [track_exists, if_neg h, ih, List.mem_cons]
      constructor
      · rintro ⟨p, hp, hc⟩
        exact ⟨p, Or.inr hp, hc⟩
      · rintro ⟨p, hp | hp, hc⟩
        · rw [hp] at hc
          exact absurd hc h
        · exact ⟨p, hp, hc⟩

/-- Value of a single decimal digit produced by `Nat.digitChar`. -/
theorem digitVal_digitChar : ∀ n, n < 10 → digitVal (Nat.digitChar n) = n := by decide

/-- `decVal` over a snoc. -/
theorem decVal_concat (l : List Char) (c : Char) :
    decVal (l ++ [c]) = decVal l * 10 + digitVal c := by
  simp [decVal]

/-- With enough fuel, `decDigitsAux` produces the decimal digits of `n`. -/
theorem decVal_decDigitsAux : ∀ fuel n, n < fuel → decVal (decDigitsAux fuel n) = n := by
  intro fuel
  induction fuel with
  | zero => intro n h; exact absurd h (Nat.not_lt_zero n)
  | succ f ih =>
    intro n h
    by_cases h10 : n < 10
    · simp [decDigitsAux, h10, decVal, digitVal_digitChar n h10]
    · have hdiv : n / 10 < f := by
        have := Nat.div_lt_self (by omega : 0 < n) (by omega : 1 < 10)
        omega
      have hm : n % 10 < 10 := Nat.mod_lt _ (by omega)
      simp only [decDigitsAux, if_neg h10, decVal_concat, ih (n / 10) hdiv,
        digitVal_digitChar _ hm]
      omega

/-- Distinct naturals have distinct decimal strings. -/
theorem natDecimal_inj : Function.Injective natDecimal := by
  intro a b h
  have hd : decDigitsAux (a + 1) a = decDigitsAux (b + 1) b := congrArg String.data h
  have ha := decVal_decDigitsAux (a + 1) a (Nat.lt_succ_self a)
  have hb := decVal_decDigitsAux (b + 1) b (Nat.lt_succ_self b)
  rw [← ha, ← hb, hd]

/-- The candidate keys tried by the uniqueness loop are pairwise distinct. -/
theorem trackKey_inj (base : String) : Function.Injective (trackKey base) := by
  have hu : ("_" : String).length = 1 := by decide
  intro j k h
  cases j with
  | zero =>
    cases k with
    | zero => rfl
    | succ k =>
      exfalso
      have hl := congrArg String.length h
      simp only [trackKey, String.length_append, hu] at hl
      omega
  | succ j =>
    cases k with
    | zero =>
      exfalso
      have hl := congrArg String.length h
      simp only [trackKey, String.length_append, hu] at hl
      omega
    | succ k =>
      have hd := congrArg String.data h
      simp only [trackKey, String.data_append, List.append_assoc] at hd
      have h1 := List.append_cancel_left hd
      have h2 := List.append_cancel_left h1
      have h3 := List.append_cancel_left h2
      have : natDecimal (j + 1) = natDecimal (k + 1) := stringDataInj h3
      have := natDecimal_inj this
      omega

/-- Pigeonhole: among the first `keys.length + 1` candidate keys, at least one
is not a key of the store. -/
theorem exists_fresh_key (keys : List String) (base : String) :
    ∃ k, k < keys.length + 1 ∧ trackKey base k ∉ keys := by
  by_contra hall
  push_neg at hall
  have hnd : ((List.range (keys.length + 1)).map (trackKey base)).Nodup :=
    (List.nodup_range _).map (trackKey_inj base)
  have hsub : ((List.range (keys.length + 1)).map (trackKey base)) ⊆ keys := by
    intro x hx
    simp only [List.mem_map, List.mem_range] at hx
    obtain ⟨k, hk, rfl⟩ := hx
    exact hall k hk
  have hle := (List.subperm_of_subset hnd hsub).length_le
  simp at hle

/-- `findFreeId` always returns some candidate key. -/
theorem findFreeId_form (keys : List String) (base : String) :
    ∀ fuel n, ∃ m, findFreeId keys base fuel n = trackKey base m := by
  intro fuel
  induction fuel with
  | zero => intro n; exact ⟨n, rfl⟩
  | succ f ih =>
    intro n
    by_cases h : trackKey base n ∈ keys
    · simpa [findFreeId, h] using ih (n + 1)
    · exact ⟨n, by simp [findFreeId, h]⟩

/-- If some candidate within the fuel budget is free, `findFreeId` returns a
key that is not in the store. -/
theorem findFreeId_not_mem (keys : List String) (base : String) :
    ∀ fuel n, (∃ k, k < fuel ∧ trackKey base (n + k) ∉ keys) →
      findFreeId keys base fuel n ∉ keys := by
  intro fuel
  induction fuel with
  | zero =>
    rintro n ⟨k, hk, -⟩
    exact absurd hk (Nat.not_lt_zero k)
  | succ f ih =>
    rintro n ⟨k, hk, hfree⟩
    by_cases h : trackKey base n ∈ keys
    · simp only [findFreeId, if_pos h]
      apply ih
      cases k with
      | zero => exact absurd h (by simpa using hfree)
      | succ k' =>
        refine ⟨k', by omega, ?_⟩
        have harg : n + 1 + k' = n + (k' + 1) := by omega
        rw [harg]
        exact hfree
    · simp only [findFreeId, if_neg h]
      exact h

/-- Appending a character that is not an underscore commutes with collapsing. -/
theorem collapse_cons_ne (x : Char) (xs : List Char) (hx : (x == '_') = false) :
    collapseUnderscores (x :: xs) = x :: collapseUnderscores xs := by
  cases xs with
  | nil => rfl
  | cons y ys => simp [collapseUnderscores, hx]

/-- Collapsing after a leading underscore skips the whole underscore run. -/
theorem collapse_cons_und (xs : List Char) :
    collapseUnderscores ('_' :: xs) = '_' :: collapseUnderscores (xs.dropWhile (· == '_')) := by
  induction xs with
  | nil => rfl
  | cons y ys ih =>
    by_cases hy : y = '_'
    · subst hy
      simpa [collapseUnderscores] using ih
    · have hyb : (y == '_') = false := by simpa using hy
      simp [collapseUnderscores, hyb]

/-- An alphanumeric character is not an underscore. -/
theorem alnum_ne_und {c : Char} (h : isAsciiAlnum c = true) : (c == '_') = false := by
  cases hx : c == '_'
  · rfl
  · exfalso
    have : c = '_' := by simpa using hx
    subst this
    exact absurd h (by decide)

/-- Dropping leading underscores of the substituted list is substitution of
the list with its leading non-alphanumeric run dropped. -/
theorem dropWhile_map_replUnd (l : List Char) :
    (l.map replUnd).dropWhile (· == '_') = (l.dropWhile (fun c => !isAsciiAlnum c)).map replUnd := by
  rw [List.dropWhile_map]
  have hp : ((fun c => c == '_') ∘ replUnd) = (fun c => !isAsciiAlnum c) := by
    funext c
    simp only [Function.comp, replUnd]
    by_cases h : isAsciiAlnum c
    · simp [h, alnum_ne_und h]
    · simp [h]
  rw [hp]

/-- Inside a non-alphanumeric run, the spec-worded replacement just skips to
the end of the run. -/
theorem runReplAux_true (l : List Char) :
    runReplAux l true = runReplAux (l.dropWhile (fun c => !isAsciiAlnum c)) false := by
  induction l with
  | nil => rfl
  | cons c rest ih =>
    by_cases h : isAsciiAlnum c
    · simp [runReplAux, h]
    · simp [runReplAux, h, ih]

/-- Worker for `collapse_map_replUnd`, by induction on a length bound. -/
theorem collapse_map_replUnd_aux :
    ∀ (n : Nat) (l : List Char), l.length ≤ n →
      collapseUnderscores (l.map replUnd) = runReplAux l false := by
  intro n
  induction n with
  | zero =>
    intro l h
    have : l = [] := List.eq_nil_of_length_eq_zero (Nat.le_zero.mp h)
    subst this
    rfl
  | succ n ih =>
    intro l h
    cases l with
    | nil => rfl
    | cons c rest =>
      simp only [List.length_cons] at h
      by_cases hc : isAsciiAlnum c
      · have hre : replUnd c = c := by simp [replUnd, hc]
        have hne : (replUnd c == '_') = false := by rw [hre]; exact alnum_ne_und hc
        rw [List.map_cons, collapse_cons_ne _ _ hne, hre, ih rest (by omega)]
        simp [runReplAux, hc]
      · have hre : replUnd c = '_' := by simp [replUnd, hc]
        have hlen : (rest.dropWhile (fun c => !isAsciiAlnum c)).length ≤ n := by
          have := (List.dropWhile_sublist (l := rest) (fun c => !isAsciiAlnum c)).length_le
          omega
        rw [List.map_cons, hre, collapse_cons_und, dropWhile_map_replUnd, ih _ hlen]
        simp [runReplAux, hc, runReplAux_true]

/-- The source's character-substitution-then-collapse equals the spec's
run-replacement. -/
theorem collapse_map_replUnd (l : List Char) :
    collapseUnderscores (l.map replUnd) = runReplAux l false :=
  collapse_map_replUnd_aux l.length l le_rfl

/-- The slug computed by the code matches the spec's description of it. -/
theorem slug_eq_specRuns (t : String) : slug t = slugSpecRuns t := by
  unfold slug slugSpecRuns
  rw [collapse_map_replUnd]

/-- C2: `generate_track_id` returns a key that is not currently a key of the
store; the key has the form `track_<slug>` or `track_<slug>_<n>` with `n ≥ 1`,
where `<slug>` is the title lower-cased with every non-alphanumeric run
replaced by a single underscore and leading/trailing underscores trimmed
(`slugSpecRuns`); and the derivation depends only on the title, never on the
candidate's source URL.  Freshness holds for every store state, so re-deriving
an id for the same title after a removal again yields a key that collides with
no currently-live id. -/
theorem generate_track_id_fresh_and_form (store : Store) (t : Track) :
    generate_track_id store t ∉ store.map Prod.fst
    ∧ (generate_track_id store t = "track_" ++ slugSpecRuns t.title
        ∨ ∃ n, 1 ≤ n ∧ generate_track_id store t
            = "track_" ++ slugSpecRuns t.title ++ "_" ++ natDecimal n)
    ∧ ∀ t' : Track, t.title = t'.title →
        generate_track_id store t = generate_track_id store t' := by
  refine ⟨?_, ?_, ?_⟩
  · apply findFreeId_not_mem
    obtain ⟨k, hk, hfree⟩ := exists_fresh_key (store.map Prod.fst) (slug t.title)
    refine ⟨k, by simpa using hk, by simpa using hfree⟩
  · obtain ⟨m, hm⟩ := findFreeId_form (store.map Prod.fst) (slug t.title) (store.length + 1) 0
    rw [generate_track_id, hm]
    cases m with
    | zero =>
      left
      rw [trackKey, slug_eq_specRuns]
    | succ m' =>
      right
      exact ⟨m' + 1, by omega, by rw [trackKey, slug_eq_specRuns]⟩
  · intro t' h
    simp [generate_track_id, h]

/-- Witness for C2 at a concrete store and candidates: the generated id is
fresh, and two candidates sharing the title "Fade" but with different URLs
generate the same id. -/
theorem generate_track_id_fresh_and_form_witness :
    generate_track_id [("track_fade", exData)] exTrackFade
        ∉ ([("track_fade", exData)] : Store).map Prod.fst
    ∧ generate_track_id [("track_fade", exData)] exTrackFade
        = generate_track_id [("track_fade", exData)] exTrackFadeOther :=
  ⟨(generate_track_id_fresh_and_form [("track_fade", exData)] exTrackFade).1,
   (generate_track_id_fresh_and_form [("track_fade", exData)] exTrackFade).2.2 exTrackFadeOther rfl⟩

/-- Nullable string fields survive the encode/decode pair. -/
theorem optStr_roundtrip (o : Option String) : optStrOfJson (jsonOfOptStr o) = some o := by
  cases o <;> rfl

/-- Nullable integer fields survive the encode/decode pair. -/
theorem optInt_roundtrip (o : Option Int) : optIntOfJson (jsonOfOptInt o) = some o := by
  cases o <;> rfl

/-- String lists survive the encode/decode pair. -/
theorem strs_roundtrip (l : List String) : strsOfJsons (l.map Json.str) = some l := by
  induction l with
  | nil => rfl
  | cons s rest ih => simp [strsOfJsons, strOfJson, ih]

/-- A stored record survives the encode/decode pair. -/
theorem decodeTrackData_encode (d : TrackData) :
    decodeTrackData (encodeTrackData d) = some d := by
  obtain ⟨ti, ge, ar, u, pd, ou, ci, fp, fsz, dt, lu⟩ := d
  simp +decide [encodeTrackData, decodeTrackData, List.lookup, strOfJson, strListOfJson,
    strs_roundtrip, optStr_roundtrip, optInt_roundtrip]

/-- The track map survives the encode/decode pair. -/
theorem decodePairs_encode (ts : Store) :
    decodePairs (ts.map (fun p => (p.1, encodeTrackData p.2))) = some ts := by
  induction ts with
  | nil => rfl
  | cons p rest ih => simp [decodePairs, decodeTrackData_encode, ih]

/-- C3: a successful `save_database` followed by a fresh `load_database`
reproduces exactly the in-memory store — the same record ids with identical
field values, in order — for every starting file state and every store. -/
theorem save_then_load_roundtrip (fs : FileState) (ts : Store) :
    load_database ((save_database true fs ts).1) = ts := by
  have hmain : ((save_database true fs ts).1).main = some (encodeDb ts) := by
    simp [save_database]
  simp only [load_database, hmain]
  simp +decide [encodeDb, decodeDb, List.lookup, decodePairs_encode]

/-- C4 counterexample: `update_track` on an id that is absent from the store
(here: any id against the empty store, and an unknown id against a one-record
store) returns the store unchanged through its ordinary return path.  The
embedded operation has no error outcome at all — the Python body is a guarded
`dict.update` with no `else` and no `raise` — so no `NotFoundError` (nor any
other failure) is produced, contradicting the claim. -/
theorem update_track_absent_is_silent :
    update_track [] "track_x" exTrackFade "2025-09-23T12:00:00" = []
    ∧ update_track [("track_fade", exData)] "track_missing" exTrackFade "2025-09-23T12:00:00"
        = [("track_fade", exData)] := by
  constructor
  · rfl
  · simp +decide [update_track]

/-- C4 amended: for an id absent from the store, `update_track` is a silent
no-op (the store is unchanged and nothing is raised); for an id present in the
store, it merges the provided fields into the existing record and refreshes
`last_updated` to the current timestamp, leaving every other entry unchanged. -/
theorem update_track_amended (store : Store) (id : String) (t : Track) (now : String) :
    (id ∉ store.map Prod.fst → update_track store id t now = store)
    ∧ (∀ d, (id, d) ∈ store →
        (id, mergeTrack d t now) ∈ update_track store id t now
        ∧ (mergeTrack d t now).last_updated = now)
    ∧ (∀ p ∈ store, p.1 ≠ id → p ∈ update_track store id t now) := by
  refine ⟨?_, ?_, ?_⟩
  · intro habs
    induction store with
    | nil => rfl
    | cons q rest ih =>
      simp only [List.map_cons, List.mem_cons] at habs
      push_neg at habs
      obtain ⟨h1, h2⟩ := habs
      simp only [update_track, List.map_cons]
      rw [if_neg (by exact fun hc => h1 hc.symm)]
      have := ih h2
      simp only [update_track] at this
      rw [this]
  · intro d hd
    refine ⟨?_, rfl⟩
    simp only [update_track, List.mem_map]
    exact ⟨(id, d), hd, by simp⟩
  · intro p hp hne
    simp only [update_track, List.mem_map]
    exact ⟨p, hp, by simp [hne]⟩

/-- Witness for C4 amended, at a one-record store: an unknown id leaves the
store unchanged, and updating the existing id produces the merged record with
the refreshed timestamp. -/
theorem update_track_amended_witness :
    update_track [("track_fade", exData)] "track_missing" exTrackFade "T1"
        = [("track_fade", exData)]
    ∧ ("track_fade", mergeTrack exData exTrackFade "T1")
        ∈ update_track [("track_fade", exData)] "track_fade" exTrackFade "T1"
    ∧ (mergeTrack exData exTrackFade "T1").last_updated = "T1" :=
  ⟨(update_track_amended [("track_fade", exData)] "track_missing" exTrackFade "T1").1
      (by decide),
   ((update_track_amended [("track_fade", exData)] "track_fade" exTrackFade "T1").2.1
      exData (by simp)).1,
   ((update_track_amended [("track_fade", exData)] "track_fade" exTrackFade "T1").2.1
      exData (by simp)).2⟩

/-- C5 (code bug): on a store holding a record whose `publish_date` is null —
a state `add_track` produces whenever date extraction failed — the call
raises (`None.startswith` is an `AttributeError`) instead of returning with
that record unmatched.  On records with string dates the prefix filter works
as claimed: a `"2023-01-15"` record is returned for year `"2023"` and not for
`"2022"`. -/
theorem get_tracks_by_year_null_date_raises :
    get_tracks_by_year [("track_fade", exDataNullDate)] "2023" = Except.error ()
    ∧ get_tracks_by_year [("track_fade", exData)] "2023"
        = Except.ok [("track_fade", exData)]
    ∧ get_tracks_by_year [("track_fade", exData)] "2022" = Except.ok [] :=
  ⟨rfl, rfl, rfl⟩

/-- C6 (code bug): `get_detailed_stats` on the empty store returns the
distinguishable "no data" dictionary without raising or dividing by zero, but
on a store holding a record whose `file_size` is null — a state `add_track`
produces whenever no payload was materialized — `sum` over the collected
sizes raises `TypeError` instead of returning a result. -/
theorem get_detailed_stats_empty_ok_null_size_raises :
    get_detailed_stats [] = Except.ok StatsResult.noData
    ∧ get_detailed_stats [("track_fade", exDataNullSize)] = Except.error () :=
  ⟨rfl, rfl⟩

/-- C7 counterexample: `"A & B & C"` does not yield 3 entries — every
fragment is a single character, and the cleaning filter drops fragments of
length ≤ 1, so the result is empty. -/
theorem parse_artists_single_char_fragments_dropped :
    parse_artists "A & B & C" = []
    ∧ (parse_artists "A & B & C").length ≠ 3 := by
  constructor
  · decide
  · decide

/-- C7 amended: `"Alan Walker feat. Noah Cyrus"` parses to exactly
`["Alan Walker", "Noah Cyrus"]`; `"A & B & C"` parses to no entries, because
single-character fragments are dropped by the cleaning filter; a bare
multi-character, non-stop-word name such as `"Single Artist"` yields exactly
one entry; and every input yields at most 5 entries. -/
theorem parse_artists_amended :
    parse_artists "Alan Walker feat. Noah Cyrus" = ["Alan Walker", "Noah Cyrus"]
    ∧ parse_artists "A & B & C" = []
    ∧ parse_artists "Single Artist" = ["Single Artist"]
    ∧ ∀ text : String, (parse_artists text).length ≤ 5 := by
  refine ⟨by decide, by decide, by decide, ?_⟩
  intro text
  unfold parse_artists
  split
  · simp
  · simp only [List.length_take]
    omega

/-- C8 counterexample: the vocabulary pass is a substring match, so
`"Progressive House & Trance"` also matches `"House"`; the result is
`["House", "Progressive House", "Trance"]`, not the claimed two-element set. -/
theorem parse_genres_house_also_matches :
    parse_genres "Progressive House & Trance" = ["House", "Progressive House", "Trance"]
    ∧ "House" ∈ parse_genres "Progressive House & Trance"
    ∧ "House" ∉ (["Progressive House", "Trance"] : List String) := by
  refine ⟨by decide, by decide, by decide⟩

/-- C8 amended: `"Progressive House & Trance"` matches the known vocabulary
with the result `["House", "Progressive House", "Trance"]` — the substring
pass also catches `"House"` inside `"Progressive House"`; whenever the
vocabulary pass finds anything, it takes precedence over the fallback
splitter; and every input yields at most 3 entries. -/
theorem parse_genres_amended :
    parse_genres "Progressive House & Trance" = ["House", "Progressive House", "Trance"]
    ∧ (∀ text : String, (parse_genres text).length ≤ 3)
    ∧ (∀ text : String, text ≠ "" → knownGenreMatches text ≠ [] →
        parse_genres text = (knownGenreMatches text).take 3) := by
  refine ⟨by decide, ?_, ?_⟩
  · intro text
    unfold parse_genres
    split
    · simp
    · simp only [List.length_take]
      omega
  · intro text htext hk
    simp only [parse_genres, if_neg htext]
    cases hE : (knownGenreMatches text).isEmpty
    · simp [hE]
    · exact absurd (List.isEmpty_iff.mp hE) hk

/-- Witness for C8 amended: on `"Trance"` the vocabulary pass finds a match
and the parser returns exactly its (truncated) result. -/
theorem parse_genres_amended_witness :
    parse_genres "Trance" = (knownGenreMatches "Trance").take 3 :=
  parse_genres_amended.2.2 "Trance" (by decide) (by decide)

/-- C9: `parse_date` maps `"2023-01-15T10:30:00Z"` to `"2023-01-15"` (the
`'T'` truncation plus ISO format), `"January 15, 2023"` to `"2023-01-15"`
(the long-form month format), the bare `"2023"` to `"2023-01-01"` (the
embedded-year fallback), and any string on which every format attempt fails
and which contains no four-digit year starting `20` to null.  The embedding
is a total function: the code catches every `ValueError` and never raises. -/
theorem parse_date_spec :
    parse_date "2023-01-15T10:30:00Z" = some "2023-01-15"
    ∧ parse_date "January 15, 2023" = some "2023-01-15"
    ∧ parse_date "2023" = some "2023-01-01"
    ∧ ∀ s : String, tryFormats srcFormats (datePart s) = none →
        findYear20 s.data = none → parse_date s = none := by
  refine ⟨by decide, by decide, by decide, ?_⟩
  intro s h1 h2
  by_cases hs : s = ""
  · simp [parse_date, hs]
  · simp [parse_date, hs, h1, h2]

/-- Witness for C9 at `"hello"`: no format matches and no year is embedded,
so the result is null. -/
theorem parse_date_spec_witness : parse_date "hello" = none :=
  parse_date_spec.2.2.2 "hello" (by decide) (by decide)

/-- C10 counterexample: `TrackDatabase.save_database` returns Python's
implicit `None` on success and on failure alike — the exception handler only
logs — so the caller receives the same indication in both cases; and
`DatabaseManager.save_database` performs no backup rename at all: starting
from a state with an existing database file and no backup, its backup slot is
still empty after a (successful) save. -/
theorem save_database_failure_indistinguishable :
    (save_database true exFileState [("track_fade", exData)]).2
        = (save_database false exFileState [("track_fade", exData)]).2
    ∧ (dm_save_database true exFileState [("track_fade", exData)]).1.backup = none :=
  ⟨rfl, rfl⟩

/-- C10 amended: `TrackDatabase.save_database` renames a pre-existing
database file onto its `.backup.json` sibling before writing the current
in-memory structure; `DatabaseManager.save_database` writes in place with no
backup; and in both classes a write failure is only logged — the call returns
`None` exactly as on success, so failure is not surfaced to the caller. -/
theorem save_database_amended (fs : FileState) (ts : Store) (j : Json)
    (h : fs.main = some j) :
    (save_database true fs ts).1.backup = some j
    ∧ (save_database true fs ts).1.main = some (encodeDb ts)
    ∧ (save_database true fs ts).2 = (save_database false fs ts).2
    ∧ (dm_save_database true fs ts).1.backup = fs.backup := by
  refine ⟨?_, ?_, rfl, rfl⟩
  · simp [save_database, h]
  · simp [save_database, h]

/-- Witness for C10 amended at a concrete pre-existing file: the old contents
move to the backup slot and the new encoding lands in the main slot. -/
theorem save_database_amended_witness :
    (save_database true exFileState []).1.backup = some (encodeDb [("track_fade", exData)])
    ∧ (save_database true exFileState []).1.main = some (encodeDb []) :=
  ⟨(save_database_amended exFileState [] (encodeDb [("track_fade", exData)]) rfl).1,
   (save_database_amended exFileState [] (encodeDb [("track_fade", exData)]) rfl).2.1⟩
